import Mathlib

/-!
# Verification of `nrf_802154_buffer_allocator.c`

Shallow embedding of the fixed-capacity buffer-pool allocator in
`src/serialization/src/nrf_802154_buffer_allocator.c`.

Modelling decisions:

* A slot's `taken` flag array is the only shared mutable state the allocator
  touches, so pool memory is modelled as a `List Bool` of taken flags (for the
  initialization routine, which must also be shown not to touch payload bytes,
  memory is a `List (Bool × α)` of flag/payload pairs).
* Pointers are machine addresses modelled as `Nat`; `uintptr_t` subtraction in
  `buffer_free` is 32-bit modular arithmetic (the target is a 32-bit Cortex-M,
  see the `__disable_irq`/PRIMASK critical section).
* `assert` failure is modelled as `none` in an `Option` result.
* Preemption by a concurrent context can strike between the lock-free `taken`
  check and the critical-section entry in `buffer_alloc`.  Each entry of an
  `envs : List (List Bool → List Bool)` argument is the state transformation
  performed by preempting contexts at one critical-section entry; sequential
  (non-preempted) execution is `envs = []`, in which case the interference is
  the identity.
-/

set_option autoImplicit false

/-- Modelled from the spec: the header declaring `nrf_802154_buffer_t` is not
among the sources.  Per the spec a slot is a fixed-size element whose payload
is handed to the caller and every returned pointer is slot-aligned, so the
`data` member sits at offset 0 of the slot and `sizeof(nrf_802154_buffer_t)`
is kept as an abstract positive parameter `slotSize`.  This is the address of
slot `i`'s `data` member, i.e. the value of `p_buffer->data` for
`p_buffer = &pool[i]`. -/
def buffer_data (base slotSize i : Nat) : Nat := base + i * slotSize

/-- Local state of `buffer_alloc` after one execution of its `for` loop:
`p_buffer` (as a slot index, `none` = `NULL`), `success`, `retry`, the taken
flags after the pass, and the number of loop iterations executed. -/
structure LoopOut where
  p_buffer : Option Nat
  success : Bool
  retry : Bool
  mem : List Bool
  steps : Nat
deriving Repr, DecidableEq

/-- The `for` loop of `buffer_alloc`, scanning from index `i` with current
`p_buffer` value `p`.  At each iteration `p_buffer` is set to `&pool[i]`; on a
lock-free observation of a free slot the critical section is entered (at which
point the interference `env` rewrites the shared flags), the flag is
re-checked, and the loop breaks with either `retry` (lost the race) or
`success` (flag set). -/
def allocLoop (env : List Bool → List Bool) (slots : List Bool) (i : Nat)
    (p : Option Nat) : LoopOut :=
  if h : i < slots.length then
    if slots[i] then
      let r := allocLoop env slots (i + 1) (some i)
      ⟨r.p_buffer, r.success, r.retry, r.mem, r.steps + 1⟩
    else
      let mem1 := env slots
      if mem1.getD i true then
        ⟨some i, false, true, mem1, 1⟩
      else
        ⟨some i, true, false, mem1.set i true, 1⟩
  else
    ⟨p, false, false, slots, 0⟩
termination_by slots.length - i

/-- The `do { ... } while (retry)` loop of `buffer_alloc`.  One interference
transformation is consumed per critical-section entry; once `envs` is
exhausted no further preemption occurs (interference `id`), matching the fact
that only finitely many preemptions can happen in any real execution.  Returns
the final values of `p_buffer` and `success` together with the resulting taken
flags.  (With interference `id` the `retry` branch is unreachable — proved in
`allocLoop_id_not_retry` — so the `[]` case is a single pass.) -/
def buffer_alloc_go : List (List Bool → List Bool) → List Bool → Option Nat →
    Option Nat × Bool × List Bool
  | [], slots, p =>
    let r := allocLoop id slots 0 p
    (r.p_buffer, r.success, r.mem)
  | env :: envs, slots, p =>
    let r := allocLoop env slots 0 p
    if r.retry then buffer_alloc_go envs r.mem r.p_buffer
    else (r.p_buffer, r.success, r.mem)

/-- The final `return success ? p_buffer->data : NULL;` of `buffer_alloc`.
The outer `none` models a null-pointer dereference (reading `->data` through a
`NULL` `p_buffer`); `some none` models returning `NULL`; `some (some a)`
models returning the data address `a`. -/
def buffer_alloc_ret (base slotSize : Nat) (p : Option Nat) (success : Bool) :
    Option (Option Nat) :=
  if success then
    match p with
    | some i => some (some (buffer_data base slotSize i))
    | none => none
  else some none

/-- `buffer_alloc` at address level: the scan/retry loops followed by the
guarded return expression.  Also returns the resulting taken flags. -/
def buffer_alloc (base slotSize : Nat) (envs : List (List Bool → List Bool))
    (slots : List Bool) : Option (Option Nat) × List Bool :=
  let r := buffer_alloc_go envs slots none
  (buffer_alloc_ret base slotSize r.1 r.2.1, r.2.2)

/-- `buffer_alloc` at slot-index level: the returned value is the claimed
slot's index (`none` = `NULL`). -/
def buffer_alloc_idx (envs : List (List Bool → List Bool))
    (slots : List Bool) : Option Nat × List Bool :=
  let r := buffer_alloc_go envs slots none
  (if r.2.1 then r.1 else none, r.2.2)

/-- `buffer_free`: computes
`idx = ((uintptr_t)p_buffer_to_free - (uintptr_t)p_buffer_pool) / sizeof(nrf_802154_buffer_t)`
with 32-bit wrap-around subtraction, `assert(idx < buffer_pool_len)` (`none` =
assertion failure), then clears `p_buffer_pool[idx].taken` under the critical
section. -/
def buffer_free (base slotSize : Nat) (addr : Nat) (slots : List Bool) :
    Option (List Bool) :=
  let idx := ((addr + 2 ^ 32 - base % 2 ^ 32) % 2 ^ 32) / slotSize
  if idx < slots.length then some (slots.set idx false) else none

/-- The initialization loop of `nrf_802154_buffer_allocator_init`: clears the
`taken` flag of the first `capacity` slots, leaving every payload and any
trailing memory untouched. -/
def init_slots {α : Type} : Nat → List (Bool × α) → List (Bool × α)
  | 0, mem => mem
  | _ + 1, [] => []
  | n + 1, s :: rest => (false, s.2) :: init_slots n rest

/-- The allocator object `nrf_802154_buffer_allocator_t`: base pointer
(`none` = `NULL`) and slot capacity. -/
structure nrf_802154_buffer_allocator_t where
  p_memory : Option Nat
  capacity : Nat
deriving Repr, DecidableEq

/-- `nrf_802154_buffer_allocator_init`: computes
`capacity = memsize / sizeof(nrf_802154_buffer_t)` (truncating `Nat`
division), `assert((capacity == 0) || ((capacity != 0) && (p_memory != NULL)))`
(`none` = assertion failure), records `p_memory` and `capacity` in the object,
and runs the flag-clearing loop over the supplied memory. -/
def nrf_802154_buffer_allocator_init {α : Type} (p_memory : Option Nat)
    (memsize slotSize : Nat) (mem : List (Bool × α)) :
    Option (nrf_802154_buffer_allocator_t × List (Bool × α)) :=
  let capacity := memsize / slotSize
  if capacity = 0 ∨ p_memory.isSome then
    some (⟨p_memory, capacity⟩, init_slots capacity mem)
  else none

/-- Smallest index `k ≥ i` of a free slot, if any: the specification of what
the scan in `buffer_alloc` finds.  Defined by the same recursion as the scan
itself. -/
def firstFreeFrom (slots : List Bool) (i : Nat) : Option Nat :=
  if h : i < slots.length then
    if slots[i] then firstFreeFrom slots (i + 1) else some i
  else none
termination_by slots.length - i

/-- Iterated sequential allocation: `n` successive `buffer_alloc` calls with
no interference, collecting the returned values. -/
def allocN (base slotSize : Nat) : Nat → List Bool →
    List (Option (Option Nat)) × List Bool
  | 0, slots => ([], slots)
  | n + 1, slots =>
    let r := buffer_alloc base slotSize [] slots
    let rest := allocN base slotSize n r.2
    (r.1 :: rest.1, rest.2)

/-! ## Characterization of the scan -/

lemma firstFreeFrom_of_ge {slots : List Bool} {i : Nat} (h : slots.length ≤ i) :
    firstFreeFrom slots i = none := by
  rw [firstFreeFrom]
  simp [Nat.not_lt.mpr h]

lemma firstFreeFrom_none_iff (slots : List Bool) (i : Nat) :
    firstFreeFrom slots i = none ↔ ∀ k, i ≤ k → slots.getD k true = true := by
  refine firstFreeFrom.induct slots
    (fun i => (firstFreeFrom slots i = none ↔
      ∀ k, i ≤ k → slots.getD k true = true)) ?_ ?_ ?_ i
  · intro x hx htaken ih
    rw [firstFreeFrom, dif_pos hx, if_pos htaken]
    rw [ih]
    constructor
    · intro hall k hk
      rcases Nat.eq_or_lt_of_le hk with rfl | hlt
      · rw [List.getD_eq_getElem _ _ hx]
        exact htaken
      · exact hall k hlt
    · intro hall k hk
      exact hall k (Nat.le_of_succ_le hk)
  · intro x hx hfree
    rw [firstFreeFrom, dif_pos hx, if_neg hfree]
    simp only [reduceCtorEq, false_iff, not_forall]
    refine ⟨x, Nat.le_refl x, ?_⟩
    rw [List.getD_eq_getElem _ _ hx]
    simpa using hfree
  · intro x hx
    rw [firstFreeFrom, dif_neg hx]
    simp only [true_iff]
    intro k hk
    have hlen : slots.length ≤ k := by omega
    rw [List.getD_eq_getElem?_getD, List.getElem?_eq_none hlen]
    rfl

lemma firstFreeFrom_some_spec {slots : List Bool} {i ℓ : Nat}
    (h : firstFreeFrom slots i = some ℓ) :
    i ≤ ℓ ∧ ℓ < slots.length ∧ slots.getD ℓ true = false ∧
      ∀ k, i ≤ k → k < ℓ → slots.getD k true = true := by
  revert h
  refine firstFreeFrom.induct slots
    (fun i => firstFreeFrom slots i = some ℓ →
      i ≤ ℓ ∧ ℓ < slots.length ∧ slots.getD ℓ true = false ∧
        ∀ k, i ≤ k → k < ℓ → slots.getD k true = true) ?_ ?_ ?_ i
  · intro x hx htaken ih h
    rw [firstFreeFrom, dif_pos hx, if_pos htaken] at h
    obtain ⟨h1, h2, h3, h4⟩ := ih h
    refine ⟨Nat.le_of_succ_le h1, h2, h3, ?_⟩
    intro k hk hk2
    rcases Nat.eq_or_lt_of_le hk with rfl | hlt
    · rw [List.getD_eq_getElem _ _ hx]
      exact htaken
    · exact h4 k hlt hk2
  · intro x hx hfree h
    rw [firstFreeFrom, dif_pos hx, if_neg hfree] at h
    obtain rfl : x = ℓ := by simpa using h
    refine ⟨Nat.le_refl x, hx, ?_, ?_⟩
    · rw [List.getD_eq_getElem _ _ hx]
      simpa using hfree
    · intro k hk hk2
      omega
  · intro x hx h
    rw [firstFreeFrom, dif_neg hx] at h
    exact absurd h (by simp)

lemma firstFreeFrom_isSome_of_free {slots : List Bool} {k : Nat}
    (hk : k < slots.length) (hfree : slots.getD k true = false) :
    ∃ ℓ, firstFreeFrom slots 0 = some ℓ := by
  cases hf : firstFreeFrom slots 0 with
  | some ℓ => exact ⟨ℓ, rfl⟩
  | none =>
    rw [firstFreeFrom_none_iff] at hf
    rw [hf k (Nat.zero_le k)] at hfree
    exact absurd hfree (by simp)

lemma allocLoop_of_none (env : List Bool → List Bool) (slots : List Bool) :
    ∀ i, firstFreeFrom slots i = none → ∀ p,
      allocLoop env slots i p =
        ⟨if slots.length ≤ i then p else some (slots.length - 1),
          false, false, slots, slots.length - i⟩ := by
  intro i
  refine firstFreeFrom.induct slots
    (fun i => firstFreeFrom slots i = none → ∀ p,
      allocLoop env slots i p =
        ⟨if slots.length ≤ i then p else some (slots.length - 1),
          false, false, slots, slots.length - i⟩) ?_ ?_ ?_ i
  · intro x hx htaken ih h p
    rw [firstFreeFrom, dif_pos hx, if_pos htaken] at h
    rw [allocLoop, dif_pos hx, if_pos htaken, ih h (some x)]
    have hne : ¬ slots.length ≤ x := Nat.not_le.mpr hx
    dsimp only
    simp only [LoopOut.mk.injEq, true_and, and_true]
    refine ⟨?_, by omega⟩
    rw [if_neg hne]
    by_cases hx1 : slots.length ≤ x + 1
    · rw [if_pos hx1]
      have hx2 : x = slots.length - 1 := by omega
      rw [hx2]
    · rw [if_neg hx1]
  · intro x hx hfree h p
    rw [firstFreeFrom, dif_pos hx, if_neg hfree] at h
    exact absurd h (by simp)
  · intro x hx h p
    rw [allocLoop, dif_neg hx, if_pos (Nat.le_of_not_lt hx)]
    have : slots.length - x = 0 := by omega
    rw [this]

lemma allocLoop_of_some (env : List Bool → List Bool) (slots : List Bool) :
    ∀ i ℓ, firstFreeFrom slots i = some ℓ → ∀ p,
      allocLoop env slots i p =
        if (env slots).getD ℓ true then
          ⟨some ℓ, false, true, env slots, ℓ + 1 - i⟩
        else
          ⟨some ℓ, true, false, (env slots).set ℓ true, ℓ + 1 - i⟩ := by
  intro i
  refine firstFreeFrom.induct slots
    (fun i => ∀ ℓ, firstFreeFrom slots i = some ℓ → ∀ p,
      allocLoop env slots i p =
        if (env slots).getD ℓ true then
          ⟨some ℓ, false, true, env slots, ℓ + 1 - i⟩
        else
          ⟨some ℓ, true, false, (env slots).set ℓ true, ℓ + 1 - i⟩) ?_ ?_ ?_ i
  · intro x hx htaken ih ℓ h p
    rw [firstFreeFrom, dif_pos hx, if_pos htaken] at h
    have hxl : x + 1 ≤ ℓ := (firstFreeFrom_some_spec h).1
    rw [allocLoop, dif_pos hx, if_pos htaken, ih ℓ h (some x)]
    by_cases hc : (env slots).getD ℓ true = true
    · rw [if_pos hc, if_pos hc]
      dsimp only
      simp only [LoopOut.mk.injEq, true_and, and_true]
      omega
    · rw [if_neg hc, if_neg hc]
      dsimp only
      simp only [LoopOut.mk.injEq, true_and, and_true]
      omega
  · intro x hx hfree ℓ h p
    rw [firstFreeFrom, dif_pos hx, if_neg hfree] at h
    obtain rfl : x = ℓ := by simpa using h
    rw [allocLoop, dif_pos hx, if_neg hfree]
    dsimp only
    have hone : x + 1 - x = 1 := by omega
    rw [hone]
  · intro x hx ℓ h p
    rw [firstFreeFrom, dif_neg hx] at h
    exact absurd h (by simp)

/-- With no interference (`env = id`), the `retry` branch of `buffer_alloc`
is unreachable: a slot observed free cannot be observed taken at the re-check. -/
lemma allocLoop_id_not_retry (slots : List Bool) (i : Nat) (p : Option Nat) :
    (allocLoop id slots i p).retry = false := by
  cases hf : firstFreeFrom slots i with
  | none => rw [allocLoop_of_none id slots i hf p]
  | some ℓ =>
    have hfree := (firstFreeFrom_some_spec hf).2.2.1
    rw [allocLoop_of_some id slots i ℓ hf p]
    simp only [id]
    rw [if_neg (by rw [hfree]; simp)]

/-! ## The retry loop -/

lemma buffer_alloc_go_nil_of_some {slots : List Bool} {ℓ : Nat}
    (h : firstFreeFrom slots 0 = some ℓ) (p : Option Nat) :
    buffer_alloc_go [] slots p = (some ℓ, true, slots.set ℓ true) := by
  have hfree := (firstFreeFrom_some_spec h).2.2.1
  simp only [buffer_alloc_go]
  rw [allocLoop_of_some id slots 0 ℓ h p]
  simp only [id_eq, hfree]
  rfl

lemma buffer_alloc_go_nil_of_none {slots : List Bool}
    (h : firstFreeFrom slots 0 = none) (p : Option Nat) :
    buffer_alloc_go [] slots p =
      (if slots.length ≤ 0 then p else some (slots.length - 1), false, slots) := by
  simp only [buffer_alloc_go]
  rw [allocLoop_of_none id slots 0 h p]

lemma buffer_alloc_go_cons_retry {env : List Bool → List Bool}
    {envs : List (List Bool → List Bool)} {slots : List Bool} {ℓ : Nat}
    (h : firstFreeFrom slots 0 = some ℓ)
    (hc : (env slots).getD ℓ true = true) (p : Option Nat) :
    buffer_alloc_go (env :: envs) slots p =
      buffer_alloc_go envs (env slots) (some ℓ) := by
  simp only [buffer_alloc_go]
  rw [allocLoop_of_some env slots 0 ℓ h p, if_pos hc]
  rfl

lemma buffer_alloc_go_cons_claim {env : List Bool → List Bool}
    {envs : List (List Bool → List Bool)} {slots : List Bool} {ℓ : Nat}
    (h : firstFreeFrom slots 0 = some ℓ)
    (hc : ¬ (env slots).getD ℓ true = true) (p : Option Nat) :
    buffer_alloc_go (env :: envs) slots p =
      (some ℓ, true, (env slots).set ℓ true) := by
  simp only [buffer_alloc_go]
  rw [allocLoop_of_some env slots 0 ℓ h p, if_neg hc]
  rfl

lemma buffer_alloc_go_cons_of_none {env : List Bool → List Bool}
    {envs : List (List Bool → List Bool)} {slots : List Bool}
    (h : firstFreeFrom slots 0 = none) (p : Option Nat) :
    buffer_alloc_go (env :: envs) slots p =
      (if slots.length ≤ 0 then p else some (slots.length - 1), false, slots) := by
  simp only [buffer_alloc_go]
  rw [allocLoop_of_none env slots 0 h p]
  rfl

lemma buffer_alloc_go_nil_pool (envs : List (List Bool → List Bool))
    (p : Option Nat) : buffer_alloc_go envs [] p = (p, false, []) := by
  have h : firstFreeFrom [] 0 = none := firstFreeFrom_of_ge (Nat.le_refl 0)
  cases envs with
  | nil => rw [buffer_alloc_go_nil_of_none h p]; rfl
  | cons env envs => rw [buffer_alloc_go_cons_of_none h p]; rfl

lemma buffer_alloc_go_success_p_buffer :
    ∀ (envs : List (List Bool → List Bool)) (slots : List Bool) (p : Option Nat),
      (buffer_alloc_go envs slots p).2.1 = true →
      ∃ ℓ, (buffer_alloc_go envs slots p).1 = some ℓ := by
  intro envs
  induction envs with
  | nil =>
    intro slots p hs
    cases hf : firstFreeFrom slots 0 with
    | some ℓ => rw [buffer_alloc_go_nil_of_some hf p]; exact ⟨ℓ, rfl⟩
    | none =>
      rw [buffer_alloc_go_nil_of_none hf p] at hs
      exact absurd hs (by simp)
  | cons env envs ih =>
    intro slots p hs
    cases hf : firstFreeFrom slots 0 with
    | some ℓ =>
      by_cases hc : (env slots).getD ℓ true = true
      · rw [buffer_alloc_go_cons_retry hf hc p] at hs ⊢
        exact ih (env slots) (some ℓ) hs
      · rw [buffer_alloc_go_cons_claim hf hc p]
        exact ⟨ℓ, rfl⟩
    | none =>
      rw [buffer_alloc_go_cons_of_none hf p] at hs
      exact absurd hs (by simp)

lemma allocLoop_steps_le (env : List Bool → List Bool) (slots : List Bool)
    (i : Nat) (p : Option Nat) :
    (allocLoop env slots i p).steps ≤ slots.length - i := by
  cases hf : firstFreeFrom slots i with
  | none => rw [allocLoop_of_none env slots i hf p]
  | some ℓ =>
    have hlen := (firstFreeFrom_some_spec hf).2.1
    rw [allocLoop_of_some env slots i ℓ hf p]
    by_cases hc : (env slots).getD ℓ true = true
    · rw [if_pos hc]
      show ℓ + 1 - i ≤ slots.length - i
      omega
    · rw [if_neg hc]
      show ℓ + 1 - i ≤ slots.length - i
      omega

lemma buffer_alloc_eq (base slotSize : Nat) (envs : List (List Bool → List Bool))
    (slots : List Bool) :
    buffer_alloc base slotSize envs slots =
      (buffer_alloc_ret base slotSize (buffer_alloc_go envs slots none).1
        (buffer_alloc_go envs slots none).2.1,
        (buffer_alloc_go envs slots none).2.2) := rfl

lemma buffer_alloc_idx_eq (envs : List (List Bool → List Bool))
    (slots : List Bool) :
    buffer_alloc_idx envs slots =
      (if (buffer_alloc_go envs slots none).2.1 then
          (buffer_alloc_go envs slots none).1
        else none,
        (buffer_alloc_go envs slots none).2.2) := rfl

/-! ## Claim theorems -/

/-- **C8.** Every operation terminates as a finite computation bounded by the
capacity and never suspends or blocks: in a sequential (non-preempted)
execution the retry branch of the do-while loop of `buffer_alloc` is
unreachable (a slot observed free cannot become taken between the optimistic
check and the re-check), so `buffer_alloc` performs exactly one scan of at
most `slots.length` (= capacity) loop iterations before returning. -/
theorem seq_alloc_single_scan_bounded (slots : List Bool) (p : Option Nat) :
    (allocLoop id slots 0 p).retry = false ∧
    (allocLoop id slots 0 p).steps ≤ slots.length ∧
    buffer_alloc_go [] slots p =
      ((allocLoop id slots 0 p).p_buffer, (allocLoop id slots 0 p).success,
        (allocLoop id slots 0 p).mem) :=
  ⟨allocLoop_id_not_retry slots 0 p,
    by simpa using allocLoop_steps_le id slots 0 p, rfl⟩

/-- **C10.** The failure path of `buffer_alloc` is total and safe even for
`capacity == 0`: the guarded return never dereferences `p_buffer->data`
through a `NULL` `p_buffer` (the result of the return expression is never the
undefined-behavior value `none`); when the scan finds no free slot the
`success` flag stays `false` and `NULL` (`some none`) is returned; and on an
empty pool the running buffer pointer is still `NULL` (`none`) at the return,
with no null-pointer dereference, whatever the interference. -/
theorem alloc_failure_path_safe (base slotSize : Nat)
    (envs : List (List Bool → List Bool)) (slots : List Bool) :
    (buffer_alloc base slotSize envs slots).1 ≠ none ∧
    ((buffer_alloc_go envs slots none).2.1 = false →
      (buffer_alloc base slotSize envs slots).1 = some none) ∧
    buffer_alloc_go envs [] none = (none, false, []) ∧
    buffer_alloc base slotSize envs [] = (some none, []) := by
  refine ⟨?_, ?_, buffer_alloc_go_nil_pool envs none, ?_⟩
  · cases hs : (buffer_alloc_go envs slots none).2.1 with
    | false => simp [buffer_alloc_eq, buffer_alloc_ret, hs]
    | true =>
      obtain ⟨ℓ, hℓ⟩ := buffer_alloc_go_success_p_buffer envs slots none hs
      simp [buffer_alloc_eq, buffer_alloc_ret, hs, hℓ]
  · intro hs
    simp [buffer_alloc_eq, buffer_alloc_ret, hs]
  · rw [buffer_alloc_eq, buffer_alloc_go_nil_pool envs none]
    rfl

/-- Witness for C10 at a concrete input: a full pool returns `NULL` safely. -/
theorem alloc_failure_path_safe_witness :
    (buffer_alloc 0 4 [] [true]).1 = some none := by
  have h := (alloc_failure_path_safe 0 4 [] [true]).2.1
  exact h (by simp [buffer_alloc_go, allocLoop])

/-- **C4.** `buffer_alloc` (sequentially) returns `NULL` if and only if no
slot is free — including on every `capacity == 0` pool, where it always
returns `NULL` — and when it returns `NULL` no slot's occupied flag is
changed: the pool state is exactly as before the call. -/
theorem alloc_null_iff_no_free_slot (base slotSize : Nat) (slots : List Bool) :
    ((buffer_alloc base slotSize [] slots).1 = some none ↔
      ∀ k, k < slots.length → slots.getD k true = true) ∧
    ((buffer_alloc base slotSize [] slots).1 = some none →
      (buffer_alloc base slotSize [] slots).2 = slots) ∧
    buffer_alloc base slotSize [] [] = (some none, []) := by
  have hempty : buffer_alloc base slotSize [] ([] : List Bool) = (some none, []) := by
    rw [buffer_alloc_eq, buffer_alloc_go_nil_pool]
    rfl
  cases hf : firstFreeFrom slots 0 with
  | some ℓ =>
    obtain ⟨-, hlen, hfree, -⟩ := firstFreeFrom_some_spec hf
    have hres : buffer_alloc base slotSize [] slots =
        (some (some (buffer_data base slotSize ℓ)), slots.set ℓ true) := by
      rw [buffer_alloc_eq, buffer_alloc_go_nil_of_some hf]
      rfl
    refine ⟨⟨?_, ?_⟩, ?_, hempty⟩
    · intro h
      rw [hres] at h
      simp at h
    · intro hall
      rw [hall ℓ hlen] at hfree
      exact absurd hfree (by simp)
    · intro h
      rw [hres] at h
      simp at h
  | none =>
    have hall := (firstFreeFrom_none_iff slots 0).mp hf
    have hres : buffer_alloc base slotSize [] slots = (some none, slots) := by
      rw [buffer_alloc_eq, buffer_alloc_go_nil_of_none hf]
      rfl
    refine ⟨⟨?_, ?_⟩, ?_, hempty⟩
    · intro _ k _
      exact hall k (Nat.zero_le k)
    · intro _
      rw [hres]
    · intro _
      rw [hres]

/-- Witness for C4 at a concrete input: an all-taken 2-slot pool. -/
theorem alloc_null_iff_no_free_slot_witness :
    (buffer_alloc 0 4 [] [true, true]).1 = some none :=
  (alloc_null_iff_no_free_slot 0 4 [true, true]).1.mpr (by decide)

/-- **C1.** For every pool state in which at least one slot is free,
`buffer_alloc` scans the slots in index order starting at 0, claims the
lowest-index slot whose occupied flag is false (setting exactly that slot's
flag to true), and returns that slot's payload pointer; and whenever the
re-check under the lock finds the candidate slot taken, the entire do-while
restarts its scan from index 0 on the current state rather than continuing
from the current index. -/
theorem alloc_claims_lowest_free_and_restarts (base slotSize : Nat)
    (slots : List Bool)
    (hfree : ∃ k, k < slots.length ∧ slots.getD k true = false) :
    ∃ ℓ, ℓ < slots.length ∧ slots.getD ℓ true = false ∧
      (∀ k, k < ℓ → slots.getD k true = true) ∧
      buffer_alloc base slotSize [] slots =
        (some (some (buffer_data base slotSize ℓ)), slots.set ℓ true) ∧
      (slots.set ℓ true).getD ℓ true = true ∧
      (∀ k, k ≠ ℓ → (slots.set ℓ true).getD k true = slots.getD k true) ∧
      (∀ env envs p, (env slots).getD ℓ true = true →
        buffer_alloc_go (env :: envs) slots p =
          buffer_alloc_go envs (env slots) (some ℓ)) := by
  obtain ⟨k, hk, hkfree⟩ := hfree
  obtain ⟨ℓ, hf⟩ := firstFreeFrom_isSome_of_free hk hkfree
  obtain ⟨-, hlen, hℓfree, hmin⟩ := firstFreeFrom_some_spec hf
  refine ⟨ℓ, hlen, hℓfree, ?_, ?_, ?_, ?_, ?_⟩
  · intro j hj
    exact hmin j (Nat.zero_le j) hj
  · rw [buffer_alloc_eq, buffer_alloc_go_nil_of_some hf]
    rfl
  · rw [List.getD_eq_getElem _ _ (by simpa using hlen)]
    exact List.getElem_set_self _
  · intro j hj
    rw [List.getD_eq_getElem?_getD, List.getD_eq_getElem?_getD,
      List.getElem?_set]
    rw [if_neg (fun h => hj h.symm)]
  · intro env envs p hc
    exact buffer_alloc_go_cons_retry hf hc p

/-- Witness for C1 at a concrete input: a one-slot free pool. -/
theorem alloc_claims_lowest_free_and_restarts_witness :
    (buffer_alloc 100 4 [] [false]).1 = some (some 100) := by
  obtain ⟨ℓ, hlen, -, -, heq, -⟩ :=
    alloc_claims_lowest_free_and_restarts 100 4 [false]
      ⟨0, by decide, by decide⟩
  have hℓ : ℓ = 0 := by
    simp only [List.length_singleton] at hlen
    omega
  subst hℓ
  rw [heq]
  simp [buffer_data]

/-! ## Initialization -/

lemma init_slots_length {α : Type} :
    ∀ (n : Nat) (mem : List (Bool × α)), (init_slots n mem).length = mem.length
  | 0, _ => rfl
  | _ + 1, [] => rfl
  | n + 1, _ :: rest => by
    simp only [init_slots, List.length_cons, init_slots_length n rest]

lemma init_slots_map_snd {α : Type} :
    ∀ (n : Nat) (mem : List (Bool × α)),
      (init_slots n mem).map Prod.snd = mem.map Prod.snd
  | 0, _ => rfl
  | _ + 1, [] => rfl
  | n + 1, s :: rest => by
    simp only [init_slots, List.map_cons, init_slots_map_snd n rest]

lemma init_slots_getElem_lt {α : Type} :
    ∀ (n : Nat) (mem : List (Bool × α)) (k : Nat), k < n →
      (init_slots n mem)[k]? = (mem[k]?).map (fun s => (false, s.2))
  | 0, _, k, hk => absurd hk (Nat.not_lt_zero k)
  | _ + 1, [], k, _ => by simp [init_slots]
  | n + 1, s :: rest, 0, _ => by simp [init_slots]
  | n + 1, s :: rest, k + 1, hk => by
    simp only [init_slots, List.getElem?_cons_succ]
    exact init_slots_getElem_lt n rest k (Nat.lt_of_succ_lt_succ hk)

lemma init_slots_getElem_ge {α : Type} :
    ∀ (n : Nat) (mem : List (Bool × α)) (k : Nat), n ≤ k →
      (init_slots n mem)[k]? = mem[k]?
  | 0, _, _, _ => rfl
  | _ + 1, [], _, _ => by simp [init_slots]
  | n + 1, s :: rest, 0, hk => absurd hk (by omega)
  | n + 1, s :: rest, k + 1, hk => by
    simp only [init_slots, List.getElem?_cons_succ]
    exact init_slots_getElem_ge n rest k (Nat.le_of_succ_le_succ hk)

/-- **C2.** For every memory region and byte length `memsize`,
`nrf_802154_buffer_allocator_init` computes `capacity = memsize / slotSize`
by truncating integer division, sets the occupied flag of every one of the
`capacity` slots to false, records the base pointer and the capacity in the
allocator object, and has no other side effect: payload bytes are never
written (`map Prod.snd` is preserved) and memory beyond the `capacity` slots
is untouched. -/
theorem init_computes_capacity_and_clears_flags {α : Type}
    (p_memory : Option Nat) (memsize slotSize : Nat) (mem : List (Bool × α))
    (hpre : memsize / slotSize = 0 ∨ p_memory.isSome) :
    ∃ obj mem2,
      nrf_802154_buffer_allocator_init p_memory memsize slotSize mem =
        some (obj, mem2) ∧
      obj.p_memory = p_memory ∧
      obj.capacity = memsize / slotSize ∧
      mem2.length = mem.length ∧
      mem2.map Prod.snd = mem.map Prod.snd ∧
      (∀ k, k < memsize / slotSize →
        (mem2[k]?).map Prod.fst = (mem[k]?).map (fun _ => false)) ∧
      (∀ k, memsize / slotSize ≤ k → mem2[k]? = mem[k]?) := by
  refine ⟨⟨p_memory, memsize / slotSize⟩, init_slots (memsize / slotSize) mem,
    ?_, rfl, rfl, init_slots_length _ mem, init_slots_map_snd _ mem, ?_, ?_⟩
  · rw [nrf_802154_buffer_allocator_init, if_pos hpre]
  · intro k hk
    rw [init_slots_getElem_lt _ mem k hk, Option.map_map]
    rfl
  · intro k hk
    exact init_slots_getElem_ge _ mem k hk

/-- Witness for C2 at a concrete input: 9 bytes of memory with 4-byte slots
give capacity 2, with the third (padding) slot untouched. -/
theorem init_computes_capacity_and_clears_flags_witness :
    ∃ (obj : nrf_802154_buffer_allocator_t) (mem2 : List (Bool × Nat)),
      nrf_802154_buffer_allocator_init (some 32) 9 4
          [(true, 7), (true, 8), (true, 9)] = some (obj, mem2) ∧
      obj.capacity = 2 ∧ obj.p_memory = some 32 := by
  obtain ⟨obj, mem2, heq, hbase, hcap, -⟩ :=
    init_computes_capacity_and_clears_flags (some 32) 9 4
      [(true, 7), (true, 8), (true, 9)] (Or.inr (by decide))
  exact ⟨obj, mem2, heq, by rw [hcap], hbase⟩

/-! ## Release and assertion behaviour -/

lemma wrap_sub_mod (base m : Nat) (hm : m < 2 ^ 32) :
    (base + m + 2 ^ 32 - base % 2 ^ 32) % 2 ^ 32 = m := by omega

lemma buffer_free_valid (base slotSize i : Nat) (slots : List Bool)
    (hs : 0 < slotSize) (hi : i < slots.length) (hw : i * slotSize < 2 ^ 32) :
    buffer_free base slotSize (buffer_data base slotSize i) slots =
      some (slots.set i false) := by
  have h1 : (buffer_data base slotSize i + 2 ^ 32 - base % 2 ^ 32) % 2 ^ 32 =
      i * slotSize := wrap_sub_mod base (i * slotSize) hw
  simp only [buffer_free, h1, Nat.mul_div_cancel i hs]
  rw [if_pos hi]

/-- Counterexample to C7 as stated: contract violations at release are *not*
all detected by assertion.  A double free — releasing the handle of slot 0 of
a 1-slot pool whose slot 0 is already free — passes the `idx < len` assertion
and succeeds silently, and a non-slot-aligned pointer strictly inside the pool
region (address 1 with 4-byte slots at base 0) is likewise silently accepted
(the truncating division maps it to slot 0). -/
theorem double_free_not_asserted :
    buffer_free 0 4 0 [false] = some [false] ∧
    buffer_free 0 4 1 [false, false] = some [false, false] := by decide

/-- **C7 (amended).** `nrf_802154_buffer_allocator_init` with null memory
asserts exactly when the computed capacity is nonzero, and `buffer_free`
asserts exactly when the computed slot index is `≥` the pool length (guarding
foreign/corrupted handles whose index falls outside the pool); handles whose
computed index is in range — including double frees and non-slot-aligned
pointers inside the pool region — are accepted without any assertion. -/
theorem assert_conditions_characterized {α : Type} (memsize slotSize : Nat)
    (mem : List (Bool × α)) (base slotSize2 addr : Nat) (slots : List Bool) :
    (nrf_802154_buffer_allocator_init none memsize slotSize mem = none ↔
      memsize / slotSize ≠ 0) ∧
    (∀ p, nrf_802154_buffer_allocator_init (some p) memsize slotSize mem ≠
      none) ∧
    (buffer_free base slotSize2 addr slots = none ↔
      slots.length ≤ ((addr + 2 ^ 32 - base % 2 ^ 32) % 2 ^ 32) / slotSize2) := by
  refine ⟨?_, ?_, ?_⟩
  · by_cases h : memsize / slotSize = 0
    · simp [nrf_802154_buffer_allocator_init, h]
    · simp [nrf_802154_buffer_allocator_init, h]
  · intro p
    simp [nrf_802154_buffer_allocator_init]
  · by_cases h :
      ((addr + 2 ^ 32 - base % 2 ^ 32) % 2 ^ 32) / slotSize2 < slots.length
    · simp only [buffer_free, if_pos h]
      constructor
      · intro hcontra
        exact absurd hcontra (by simp)
      · intro hle
        exact absurd hle (Nat.not_le.mpr h)
    · simp only [buffer_free, if_neg h]
      exact iff_of_true trivial (Nat.le_of_not_lt h)

/-- Witness for C7 (amended) at a concrete input: null memory with capacity
2 asserts at init, and a foreign handle beyond the pool asserts at release. -/
theorem assert_conditions_characterized_witness :
    nrf_802154_buffer_allocator_init none 9 4 ([] : List (Bool × Nat)) =
      none ∧
    buffer_free 0 4 8 [false, false] = none := by
  have h := assert_conditions_characterized 9 4 ([] : List (Bool × Nat))
    0 4 8 [false, false]
  exact ⟨h.1.mpr (by decide), h.2.2.mpr (by decide)⟩

lemma getD_set_of_lt (slots : List Bool) (ℓ : Nat) (b d : Bool)
    (h : ℓ < slots.length) : (slots.set ℓ b).getD ℓ d = b := by
  rw [List.getD_eq_getElem _ _ (by simpa using h)]
  exact List.getElem_set_self _

lemma getD_set_ne (slots : List Bool) (i k : Nat) (b d : Bool) (h : i ≠ k) :
    (slots.set i b).getD k d = slots.getD k d := by
  rw [List.getD_eq_getElem?_getD, List.getD_eq_getElem?_getD,
    List.getElem?_set, if_neg h]

/-- **C5.** For every valid handle — the payload pointer of slot `i` of the
pool, previously returned by allocate and still in range — `buffer_free`
computes `index = (handle_address - base_address) / slot_size`, recovers
exactly `i`, sets that slot's occupied flag to false while leaving every other
slot's flag unchanged, and succeeds unconditionally (`some` result: no
assertion, no failure path). -/
theorem free_valid_handle_clears_slot (base slotSize i : Nat)
    (slots : List Bool) (hs : 0 < slotSize) (hi : i < slots.length)
    (hw : base + slots.length * slotSize ≤ 2 ^ 32) :
    ∃ out, buffer_free base slotSize (buffer_data base slotSize i) slots =
        some out ∧
      out = slots.set i false ∧
      out.getD i true = false ∧
      (∀ k, k ≠ i → out.getD k true = slots.getD k true) := by
  have hA : i * slotSize < slots.length * slotSize :=
    Nat.mul_lt_mul_of_lt_of_le hi (Nat.le_refl slotSize) hs
  have hw2 : i * slotSize < 2 ^ 32 :=
    Nat.lt_of_lt_of_le hA (Nat.le_trans (Nat.le_add_left _ base) hw)
  refine ⟨slots.set i false,
    buffer_free_valid base slotSize i slots hs hi hw2, rfl, ?_, ?_⟩
  · exact getD_set_of_lt slots i false true hi
  · intro k hk
    exact getD_set_ne slots i k false true (fun h => hk h.symm)

/-- Witness for C5 at a concrete input: releasing slot 1's handle of a fully
taken 3-slot pool at base 100 with 4-byte slots. -/
theorem free_valid_handle_clears_slot_witness :
    buffer_free 100 4 104 [true, true, true] = some [true, false, true] := by
  obtain ⟨out, heq, hout, -, -⟩ :=
    free_valid_handle_clears_slot 100 4 1 [true, true, true] (by decide)
      (by decide) (by decide)
  rw [hout] at heq
  exact heq

/-! ## Exhausting a fresh pool -/

lemma set_replicate_append (k m : Nat) :
    (List.replicate k true ++ false :: List.replicate m false).set k true =
      List.replicate (k + 1) true ++ List.replicate m false := by
  induction k with
  | zero => rfl
  | succ k ih =>
    simp only [List.replicate_succ, List.cons_append, List.set_cons_succ, ih]

lemma fff_replicate (k : Nat) (rest : List Bool) :
    firstFreeFrom (List.replicate k true ++ false :: rest) 0 = some k := by
  have hfree :
      (List.replicate k true ++ false :: rest).getD k true = false := by
    rw [List.getD_eq_getElem?_getD, List.getElem?_append_right (by simp)]
    simp
  have hk : k < (List.replicate k true ++ false :: rest).length := by
    simp
  obtain ⟨ℓ, hℓ⟩ := firstFreeFrom_isSome_of_free hk hfree
  obtain ⟨-, hlen, hℓfree, hmin⟩ := firstFreeFrom_some_spec hℓ
  have hkℓ : ℓ = k := by
    rcases Nat.lt_trichotomy ℓ k with h | h | h
    · have htrue :
          (List.replicate k true ++ false :: rest).getD ℓ true = true := by
        rw [List.getD_eq_getElem?_getD,
          List.getElem?_append_left (by simpa using h)]
        simp [List.getElem?_replicate, h]
      rw [htrue] at hℓfree
      exact absurd hℓfree (by simp)
    · exact h
    · have := hmin k (Nat.zero_le k) h
      rw [hfree] at this
      exact absurd this (by simp)
  rw [hkℓ] at hℓ
  exact hℓ

lemma fff_replicate_true (n : Nat) :
    firstFreeFrom (List.replicate n true) 0 = none := by
  rw [firstFreeFrom_none_iff]
  intro k _
  rw [List.getD_eq_getElem?_getD, List.getElem?_replicate]
  by_cases h : k < n
  · simp [h]
  · simp [h]

lemma alloc_step_state (base slotSize k m : Nat) :
    buffer_alloc base slotSize []
        (List.replicate k true ++ List.replicate (m + 1) false) =
      (some (some (buffer_data base slotSize k)),
        List.replicate (k + 1) true ++ List.replicate m false) := by
  rw [List.replicate_succ]
  rw [buffer_alloc_eq,
    buffer_alloc_go_nil_of_some (fff_replicate k (List.replicate m false))]
  rw [set_replicate_append k m]
  rfl

lemma allocN_from (base slotSize : Nat) :
    ∀ (c k : Nat),
      allocN base slotSize c
          (List.replicate k true ++ List.replicate c false) =
        ((List.range c).map
            (fun j => some (some (buffer_data base slotSize (k + j)))),
          List.replicate (k + c) true) := by
  intro c
  induction c with
  | zero =>
    intro k
    simp [allocN]
  | succ c ih =>
    intro k
    rw [allocN]
    rw [alloc_step_state base slotSize k c]
    dsimp only
    rw [ih (k + 1)]
    have hfun : ((fun j => some (some (buffer_data base slotSize (k + j)))) ∘
        Nat.succ) = fun j => some (some (buffer_data base slotSize (k + 1 + j))) := by
      funext j
      have harith : k + (j + 1) = k + 1 + j := by omega
      simp only [Function.comp]
      rw [Nat.succ_eq_add_one, Nat.add_comm j 1, ← Nat.add_assoc]
    have harr : k + 1 + c = k + (c + 1) := by omega
    rw [List.range_succ_eq_map, List.map_cons, List.map_map, hfun, harr]
    simp

/-- **C3.** On a freshly initialized pool of `n` slots, `n` successive
`buffer_alloc` calls with no intervening release return exactly the `n`
pairwise-distinct, non-null, slot-aligned payload pointers
`base + k * slotSize` for `k = 0, …, n-1`, each lying within
`[base, base + n * slotSize)`, leaving every slot taken; and the `(n+1)`-th
call (on the now fully taken pool) returns `NULL`. -/
theorem fresh_pool_alloc_distinct_in_range (base slotSize n : Nat)
    (hs : 0 < slotSize) :
    allocN base slotSize n (List.replicate n false) =
      ((List.range n).map (fun k => some (some (buffer_data base slotSize k))),
        List.replicate n true) ∧
    (buffer_alloc base slotSize [] (List.replicate n true)).1 = some none ∧
    (∀ j1 j2, j1 < n → j2 < n → j1 ≠ j2 →
      buffer_data base slotSize j1 ≠ buffer_data base slotSize j2) ∧
    (∀ j, j < n → base ≤ buffer_data base slotSize j ∧
      buffer_data base slotSize j < base + n * slotSize ∧
      (buffer_data base slotSize j - base) % slotSize = 0) := by
  refine ⟨?_, ?_, ?_, ?_⟩
  · have h := allocN_from base slotSize n 0
    simpa using h
  · rw [buffer_alloc_eq, buffer_alloc_go_nil_of_none (fff_replicate_true n)]
    rfl
  · intro j1 j2 _ _ hne heq
    have h1 : j1 * slotSize = j2 * slotSize :=
      Nat.add_left_cancel heq
    exact hne (Nat.eq_of_mul_eq_mul_right hs h1)
  · intro j hj
    refine ⟨Nat.le_add_right base _, ?_, ?_⟩
    · exact Nat.add_lt_add_left
        (Nat.mul_lt_mul_of_lt_of_le hj (Nat.le_refl slotSize) hs) base
    · simp [buffer_data]

/-- Witness for C3 at a concrete input: a 2-slot pool at base 0 with 4-byte
slots hands out 0 and 4, then refuses. -/
theorem fresh_pool_alloc_distinct_in_range_witness :
    (allocN 0 4 2 (List.replicate 2 false)).1 =
      [some (some 0), some (some 4)] ∧
    (buffer_alloc 0 4 [] (List.replicate 2 true)).1 = some none := by
  have h := fresh_pool_alloc_distinct_in_range 0 4 2 (by decide)
  refine ⟨?_, h.2.1⟩
  rw [h.1]
  decide

/-! ## Round-trip -/

/-- **C6.** Round-trip: every pointer returned by allocate is accepted by a
subsequent release, after which that slot is again claimable by a future
allocate; concretely, on a capacity-3 pool: allocate A, B, C (three distinct
successes at slots 0, 1, 2), allocate D returns `NULL`, release B, allocate E
returns exactly B's former slot address `buffer_data base slotSize 1`, and
after releasing A, C, E the pool is fully free again, so three further
allocates all succeed. -/
theorem alloc_free_roundtrip_scenario (base slotSize : Nat) (hs : 0 < slotSize)
    (hw : base + 3 * slotSize ≤ 2 ^ 32) :
    buffer_alloc base slotSize [] [false, false, false] =
      (some (some (buffer_data base slotSize 0)), [true, false, false]) ∧
    buffer_alloc base slotSize [] [true, false, false] =
      (some (some (buffer_data base slotSize 1)), [true, true, false]) ∧
    buffer_alloc base slotSize [] [true, true, false] =
      (some (some (buffer_data base slotSize 2)), [true, true, true]) ∧
    (buffer_alloc base slotSize [] [true, true, true]).1 = some none ∧
    buffer_free base slotSize (buffer_data base slotSize 1)
      [true, true, true] = some [true, false, true] ∧
    buffer_alloc base slotSize [] [true, false, true] =
      (some (some (buffer_data base slotSize 1)), [true, true, true]) ∧
    buffer_free base slotSize (buffer_data base slotSize 0)
      [true, true, true] = some [false, true, true] ∧
    buffer_free base slotSize (buffer_data base slotSize 2)
      [false, true, true] = some [false, true, false] ∧
    buffer_free base slotSize (buffer_data base slotSize 1)
      [false, true, false] = some [false, false, false] ∧
    (allocN base slotSize 3 [false, false, false]).1 =
      [some (some (buffer_data base slotSize 0)),
        some (some (buffer_data base slotSize 1)),
        some (some (buffer_data base slotSize 2))] ∧
    (∀ slots ℓ, slots.length ≤ 3 → (buffer_alloc_idx [] slots).1 = some ℓ →
      buffer_free base slotSize (buffer_data base slotSize ℓ)
          ((buffer_alloc_idx [] slots).2) =
        some (((buffer_alloc_idx [] slots).2).set ℓ false) ∧
      (((buffer_alloc_idx [] slots).2).set ℓ false).getD ℓ true = false ∧
      ((buffer_alloc_idx []
          (((buffer_alloc_idx [] slots).2).set ℓ false)).1).isSome = true) := by
  have hf0 : firstFreeFrom [false, false, false] 0 = some 0 := by
    simp [firstFreeFrom]
  have hf1 : firstFreeFrom [true, false, false] 0 = some 1 := by
    simp [firstFreeFrom]
  have hf2 : firstFreeFrom [true, true, false] 0 = some 2 := by
    simp [firstFreeFrom]
  have hfE : firstFreeFrom [true, false, true] 0 = some 1 := by
    simp [firstFreeFrom]
  have hfD : firstFreeFrom [true, true, true] 0 = none := by
    simp [firstFreeFrom]
  refine ⟨?_, ?_, ?_, ?_, ?_, ?_, ?_, ?_, ?_, ?_, ?_⟩
  · rw [buffer_alloc_eq, buffer_alloc_go_nil_of_some hf0]
    rfl
  · rw [buffer_alloc_eq, buffer_alloc_go_nil_of_some hf1]
    rfl
  · rw [buffer_alloc_eq, buffer_alloc_go_nil_of_some hf2]
    rfl
  · rw [buffer_alloc_eq, buffer_alloc_go_nil_of_none hfD]
    rfl
  · exact buffer_free_valid base slotSize 1 [true, true, true] hs (by decide)
      (by omega)
  · rw [buffer_alloc_eq, buffer_alloc_go_nil_of_some hfE]
    rfl
  · exact buffer_free_valid base slotSize 0 [true, true, true] hs (by decide)
      (by omega)
  · exact buffer_free_valid base slotSize 2 [false, true, true] hs (by decide)
      (by omega)
  · exact buffer_free_valid base slotSize 1 [false, true, false] hs (by decide)
      (by omega)
  · have h := allocN_from base slotSize 3 0
    simp only [List.replicate, List.nil_append, Nat.zero_add] at h
    rw [h]
    rfl
  · intro slots ℓ hlen3 halloc
    cases hf : firstFreeFrom slots 0 with
    | none =>
      rw [buffer_alloc_idx_eq, buffer_alloc_go_nil_of_none hf] at halloc
      simp at halloc
    | some ℓ0 =>
      rw [buffer_alloc_idx_eq, buffer_alloc_go_nil_of_some hf] at halloc
      simp at halloc
      subst halloc
      obtain ⟨-, hlen, -, -⟩ := firstFreeFrom_some_spec hf
      have h2 : (buffer_alloc_idx [] slots).2 = slots.set ℓ0 true := by
        rw [buffer_alloc_idx_eq, buffer_alloc_go_nil_of_some hf]
      rw [h2]
      have hsetlen : ℓ0 < (slots.set ℓ0 true).length := by
        rw [List.length_set]
        exact hlen
      refine ⟨?_, ?_, ?_⟩
      · have hℓ3 : ℓ0 < 3 := Nat.lt_of_lt_of_le hlen hlen3
        have hb : ℓ0 * slotSize ≤ 2 * slotSize :=
          Nat.mul_le_mul_right slotSize (by omega)
        have hw2 : ℓ0 * slotSize < 2 ^ 32 :=
          Nat.lt_of_le_of_lt hb (by omega)
        exact buffer_free_valid base slotSize ℓ0 (slots.set ℓ0 true) hs
          hsetlen hw2
      · exact getD_set_of_lt _ ℓ0 false true hsetlen
      · have hfree2 :
            ((slots.set ℓ0 true).set ℓ0 false).getD ℓ0 true = false :=
          getD_set_of_lt _ ℓ0 false true hsetlen
        have hlen2 : ℓ0 < ((slots.set ℓ0 true).set ℓ0 false).length := by
          rw [List.length_set, List.length_set]
          exact hlen
        obtain ⟨ℓ2, hf2b⟩ := firstFreeFrom_isSome_of_free hlen2 hfree2
        rw [buffer_alloc_idx_eq, buffer_alloc_go_nil_of_some hf2b]
        simp

/-- Witness for C6 at a concrete input: base 0, 4-byte slots.  E returns B's
former address 4. -/
theorem alloc_free_roundtrip_scenario_witness :
    buffer_alloc 0 4 [] [false, false, false] =
      (some (some 0), [true, false, false]) ∧
    buffer_alloc 0 4 [] [true, false, true] =
      (some (some 4), [true, true, true]) := by
  have h := alloc_free_roundtrip_scenario 0 4 (by decide) (by decide)
  exact ⟨h.1, h.2.2.2.2.2.1⟩

/-! ## The injected race -/

/-- **C9.** Under concurrent allocate attempts from two execution contexts —
context B preempting context A between A's lock-free occupancy check and A's
critical-section acquisition, and B running one complete `buffer_alloc` of
its own at that point (the interference `fun s => (buffer_alloc_idx [] s).2`)
— no slot is ever double-allocated: A never returns the slot B claimed (at
most one of the two contexts observes a slot free under the lock and claims
it), and every slot either context claimed has `occupied = true` in the final
state, i.e. at most one outstanding allocation exists per taken slot. -/
theorem race_no_double_allocation (slots : List Bool) (iB iA : Option Nat)
    (hB : (buffer_alloc_idx [] slots).1 = iB)
    (hA : (buffer_alloc_idx [fun s => (buffer_alloc_idx [] s).2] slots).1 =
      iA) :
    (∀ j, iA = some j → iB ≠ some j) ∧
    (∀ j, iB = some j →
      ((buffer_alloc_idx [fun s => (buffer_alloc_idx [] s).2] slots).2).getD
        j true = true) ∧
    (∀ j, iA = some j →
      ((buffer_alloc_idx [fun s => (buffer_alloc_idx [] s).2] slots).2).getD
        j true = true) := by
  cases hf : firstFreeFrom slots 0 with
  | none =>
    have hBv : iB = none := by
      rw [← hB, buffer_alloc_idx_eq, buffer_alloc_go_nil_of_none hf]
      simp
    have hgo := @buffer_alloc_go_cons_of_none
      (fun s => (buffer_alloc_idx [] s).2) [] slots hf none
    have hAv : iA = none := by
      rw [← hA, buffer_alloc_idx_eq, hgo]
      simp
    refine ⟨?_, ?_, ?_⟩
    · intro j hj
      rw [hAv] at hj
      exact absurd hj (by simp)
    · intro j hj
      rw [hBv] at hj
      exact absurd hj (by simp)
    · intro j hj
      rw [hAv] at hj
      exact absurd hj (by simp)
  | some ℓ =>
    obtain ⟨-, hlen, -, -⟩ := firstFreeFrom_some_spec hf
    have hs1 : (buffer_alloc_idx [] slots).2 = slots.set ℓ true := by
      rw [buffer_alloc_idx_eq, buffer_alloc_go_nil_of_some hf]
    have hBv : iB = some ℓ := by
      rw [← hB, buffer_alloc_idx_eq, buffer_alloc_go_nil_of_some hf]
      simp
    have hc : ((fun s => (buffer_alloc_idx [] s).2) slots).getD ℓ true =
        true := by
      simp only [hs1]
      exact getD_set_of_lt slots ℓ true true hlen
    have hretry := @buffer_alloc_go_cons_retry
      (fun s => (buffer_alloc_idx [] s).2) [] slots ℓ hf hc none
    simp only [hs1] at hretry
    cases hf2 : firstFreeFrom (slots.set ℓ true) 0 with
    | none =>
      have hAv : iA = none := by
        rw [← hA, buffer_alloc_idx_eq, hretry,
          buffer_alloc_go_nil_of_none hf2]
        simp
      have hmem :
          (buffer_alloc_idx [fun s => (buffer_alloc_idx [] s).2] slots).2 =
            slots.set ℓ true := by
        rw [buffer_alloc_idx_eq, hretry, buffer_alloc_go_nil_of_none hf2]
      refine ⟨?_, ?_, ?_⟩
      · intro j hj
        rw [hAv] at hj
        exact absurd hj (by simp)
      · intro j hj
        rw [hBv] at hj
        have h2 : ℓ = j := by simpa using hj
        subst h2
        rw [hmem]
        exact getD_set_of_lt slots ℓ true true hlen
      · intro j hj
        rw [hAv] at hj
        exact absurd hj (by simp)
    | some ℓ2 =>
      obtain ⟨-, hlen2, hfree2, -⟩ := firstFreeFrom_some_spec hf2
      have hne : ℓ2 ≠ ℓ := by
        intro hcontra
        rw [hcontra, getD_set_of_lt slots ℓ true true hlen] at hfree2
        exact absurd hfree2 (by simp)
      have hAv : iA = some ℓ2 := by
        rw [← hA, buffer_alloc_idx_eq, hretry,
          buffer_alloc_go_nil_of_some hf2]
        simp
      have hmem :
          (buffer_alloc_idx [fun s => (buffer_alloc_idx [] s).2] slots).2 =
            (slots.set ℓ true).set ℓ2 true := by
        rw [buffer_alloc_idx_eq, hretry, buffer_alloc_go_nil_of_some hf2]
      refine ⟨?_, ?_, ?_⟩
      · intro j hj hcontra
        rw [hAv] at hj
        rw [hBv] at hcontra
        have h1 : ℓ2 = j := by simpa using hj
        have h2 : ℓ = j := by simpa using hcontra
        exact hne (h1.trans h2.symm)
      · intro j hj
        rw [hBv] at hj
        have h2 : ℓ = j := by simpa using hj
        subst h2
        rw [hmem, getD_set_ne _ ℓ2 ℓ true true hne]
        exact getD_set_of_lt slots ℓ true true hlen
      · intro j hj
        rw [hAv] at hj
        have h1 : ℓ2 = j := by simpa using hj
        subst h1
        rw [hmem]
        exact getD_set_of_lt _ ℓ2 true true hlen2

/-- Witness for C9 at a concrete input: on `[false, false]`, B (preempting)
claims slot 0, A loses the race on slot 0, rescans and claims slot 1; both
flags end up taken and no slot is double-allocated. -/
theorem race_no_double_allocation_witness :
    (buffer_alloc_idx [] [false, false]).1 = some 0 ∧
    (buffer_alloc_idx [fun s => (buffer_alloc_idx [] s).2]
      [false, false]).1 = some 1 ∧
    ((buffer_alloc_idx [fun s => (buffer_alloc_idx [] s).2]
      [false, false]).2).getD 0 true = true ∧
    (some 0 : Option Nat) ≠ some 1 := by
  have hf : firstFreeFrom [false, false] 0 = some 0 := by
    simp [firstFreeFrom]
  have hB : (buffer_alloc_idx [] [false, false]).1 = some 0 := by
    rw [buffer_alloc_idx_eq, buffer_alloc_go_nil_of_some hf]
    rfl
  have hs1 : (buffer_alloc_idx [] [false, false]).2 = [true, false] := by
    rw [buffer_alloc_idx_eq, buffer_alloc_go_nil_of_some hf]
    rfl
  have hc : ((fun s => (buffer_alloc_idx [] s).2) [false, false]).getD 0
      true = true := by
    show ((buffer_alloc_idx [] [false, false]).2).getD 0 true = true
    rw [hs1]
    rfl
  have hretry := @buffer_alloc_go_cons_retry
    (fun s => (buffer_alloc_idx [] s).2) [] [false, false] 0 hf hc none
  simp only [hs1] at hretry
  have hf2 : firstFreeFrom [true, false] 0 = some 1 := by
    simp [firstFreeFrom]
  have hA : (buffer_alloc_idx [fun s => (buffer_alloc_idx [] s).2]
      [false, false]).1 = some 1 := by
    rw [buffer_alloc_idx_eq, hretry, buffer_alloc_go_nil_of_some hf2]
    rfl
  have h := race_no_double_allocation [false, false] (some 0) (some 1) hB hA
  exact ⟨hB, hA, h.2.1 0 rfl, by simp⟩
